import Mathlib

/-!
Shallow embedding of the `life` example of `neutrino_examples`
(`src/life/src/main.cpp`): a small ECS runtime with a type-segregated
component storage, a scheduler running registered systems in order, a
movement system applying boundary reflection in a fixed rectangular
domain, and a render system emitting one draw submission per entity.

Machine integers of the C++ source (`int`, via `NM::Vector2i` and
`N::Size`) are modelled as `Int`; C++ integer division (truncation
toward zero) is `Int.tdiv`.  Float-valued colors are only stored and
passed through (no arithmetic), so they are modelled as `Rat`
quadruples.  The fallible container accessor (`operator[]`, whose
out-of-bounds use is undefined behavior in C++) is modelled as an
`Option`-returning lookup, so a whole system tick lives in the
`Option` monad and succeeds exactly when every access is in bounds.
-/

/-- Embedding of `neutrino::Size` (window / domain size, `int` fields). -/
structure NSize where
  width : Int
  height : Int
deriving DecidableEq, Repr

/-- Embedding of `NM::Vector2i`. -/
structure Vector2i where
  x : Int
  y : Int
deriving DecidableEq, Repr

/-- Embedding of `NG::Colorf`: four float channels, modelled as `Rat`
    since the program only stores and forwards them. -/
structure Colorf where
  r : Rat
  g : Rat
  b : Rat
  a : Rat
deriving DecidableEq, Repr

/-- `struct RenderComponent { NG::Colorf color; }` -/
structure RenderComponent where
  color : Colorf
deriving DecidableEq, Repr

/-- `struct SizeComponent { NM::Vector2i size; }` -/
structure SizeComponent where
  size : Vector2i
deriving DecidableEq, Repr

/-- `struct PositionComponent { NM::Vector2i pos; }` -/
structure PositionComponent where
  pos : Vector2i
deriving DecidableEq, Repr

/-- `struct MovementComponent { NM::Vector2i offset; }` -/
structure MovementComponent where
  offset : Vector2i
deriving DecidableEq, Repr

/-- The storage of `ECS<RenderComponent, SizeComponent, PositionComponent,
    MovementComponent>`: one growable container per declared component type,
    in declaration order.  The C++ `std::array` of `std::variant`-wrapped
    vectors is flattened into one field per declared type; the static
    ordinal (`component_index_v`) becomes the field position. -/
structure ECSStorage where
  renderC : List RenderComponent
  sizeC : List SizeComponent
  posC : List PositionComponent
  moveC : List MovementComponent
deriving DecidableEq, Repr

/-- A component value tagged with its declared type, for stating
    type-generic properties of the storage registry. -/
inductive Component where
  | render (c : RenderComponent)
  | size (c : SizeComponent)
  | position (c : PositionComponent)
  | movement (c : MovementComponent)
deriving DecidableEq, Repr

/-- `ECS::add_component`: `std::get<ContainerType>(m_storage[index]).push_back(component)` —
    appends to the container of the component's static type. -/
def add_component (st : ECSStorage) : Component → ECSStorage
  | .render c => { st with renderC := st.renderC ++ [c] }
  | .size c => { st with sizeC := st.sizeC ++ [c] }
  | .position c => { st with posC := st.posC ++ [c] }
  | .movement c => { st with moveC := st.moveC ++ [c] }

/-- The static ordinal of a component type inside the storage
    (`component_index_v` over the declared type list). -/
def ctype : Component → Fin 4
  | .render _ => 0
  | .size _ => 1
  | .position _ => 2
  | .movement _ => 3

/-- Type-erased view of one container slot of the storage, as a list of
    tagged component values, indexed by the static ordinal. -/
def containerView (st : ECSStorage) : Fin 4 → List Component
  | 0 => st.renderC.map .render
  | 1 => st.sizeC.map .size
  | 2 => st.posC.map .position
  | 3 => st.moveC.map .movement

/-- `ECS::component<T>(index)`: the container lookup `container[index]`.
    The out-of-bounds branch (undefined behavior in C++) is the `none`
    result. -/
def component? (l : List α) (i : Nat) : Option α := l[i]?

/-- `constexpr std::size_t EntityesCount = 100000;` -/
def EntityesCount : Nat := 100000

/-- Value of one uniform binding of a draw submission.  The program
    binds `NM::Vector3f{vec2, z}` (an integer pair widened with a
    constant third coordinate) and `NG::Colorf` values. -/
inductive UniformValue where
  | vec3 (v : Vector2i) (z : Int)
  | color (c : Colorf)
deriving DecidableEq, Repr

/-- One named uniform binding (`NG::Uniform`). -/
structure Uniform where
  name : String
  value : UniformValue
deriving DecidableEq, Repr

/-- One draw submission handed to the renderer by
    `Renderer::render(mesh, shader, uniforms)`. -/
structure DrawCall where
  mesh : Nat
  shader : Nat
  uniforms : List Uniform
deriving DecidableEq, Repr

/-- Observable state a system can touch: the component storage plus the
    trace of draw submissions accumulated by the external renderer. -/
structure World where
  storage : ECSStorage
  draws : List DrawCall
deriving DecidableEq, Repr

/-- A registered system, reduced to its one capability `update()`:
    a state transformer over the world, failing when it performs an
    out-of-bounds container access. -/
abbrev SystemFn : Type := World → Option World

/-- The scheduler (`ECS` facade): the owned world and the ordered list
    of registered systems. -/
structure ECS where
  world : World
  systems : List SystemFn

/-- `ECS::add_component` at the facade level: forwards to the storage,
    leaving the system list untouched. -/
def ECS.addComponent (e : ECS) (c : Component) : ECS :=
  { e with world := { e.world with storage := add_component e.world.storage c } }

/-- `ECS::add_system`: appends to the ordered system list. -/
def ECS.addSystem (e : ECS) (s : SystemFn) : ECS :=
  { e with systems := e.systems ++ [s] }

/-- `ECS::update`: `for (auto &s : m_systems) s->update();` — runs every
    registered system once, in registration order. -/
def ECS.update (e : ECS) : Option ECS :=
  (e.systems.foldlM (fun w (s : SystemFn) => s w) e.world).map (fun w => { e with world := w })

/-- Iterated scheduler ticks (`m_ecs.update()` once per frame of the
    main loop). -/
def ECS.updateN : Nat → ECS → Option ECS
  | 0, e => some e
  | n + 1, e => (ECS.update e).bind (ECS.updateN n)

/-- The per-entity body of `MovementSystem::update` (one loop iteration):
    per axis, the offset is negated when the box edge
    `pos ± size / 2` crosses the domain boundary, then the position is
    advanced by the resulting offset.  Division is C++ truncating
    division. -/
def moveStep (dom : NSize) (pos sz off : Vector2i) : Vector2i × Vector2i :=
  let ox := if pos.x + Int.tdiv sz.x 2 > dom.width ∨ pos.x - Int.tdiv sz.x 2 < 0 then -off.x else off.x
  let oy := if pos.y + Int.tdiv sz.y 2 > dom.height ∨ pos.y - Int.tdiv sz.y 2 < 0 then -off.y else off.y
  (⟨pos.x + ox, pos.y + oy⟩, ⟨ox, oy⟩)

/-- One iteration of the `MovementSystem::update` loop at entity
    `index`: reads position, size and movement components at `index`,
    applies `moveStep`, and writes position and movement back. -/
def movementUpdateAt (dom : NSize) (st : ECSStorage) (i : Nat) : Option ECSStorage := do
  let p ← component? st.posC i
  let s ← component? st.sizeC i
  let m ← component? st.moveC i
  let r := moveStep dom p.pos s.size m.offset
  pure { st with posC := st.posC.set i ⟨r.1⟩, moveC := st.moveC.set i ⟨r.2⟩ }

/-- `MovementSystem::update`: the loop
    `for (index = 0; index < count; ++index)` over `movementUpdateAt`. -/
def movementTick (dom : NSize) (count : Nat) (st : ECSStorage) : Option ECSStorage :=
  (List.range count).foldlM (movementUpdateAt dom) st

/-- `MovementSystem` as a registered system: updates the storage, emits
    nothing to the renderer. -/
def MovementSystem.update (dom : NSize) (count : Nat) : SystemFn :=
  fun w => (movementTick dom count w.storage).map (fun st => { w with storage := st })

/-- The body of the `RenderSystem::update` loop at entity `index`:
    reads render, size and position components and forms the draw
    submission `render(mesh, shader, {pos, size, color})`. -/
def renderAt (mesh shader : Nat) (st : ECSStorage) (i : Nat) : Option DrawCall := do
  let r ← component? st.renderC i
  let s ← component? st.sizeC i
  let p ← component? st.posC i
  pure ⟨mesh, shader,
    [⟨"pos", .vec3 p.pos 0⟩, ⟨"size", .vec3 s.size 1⟩, ⟨"color", .color r.color⟩]⟩

/-- `RenderSystem::update`: one draw submission per entity index, in
    index order. -/
def renderTick (mesh shader count : Nat) (st : ECSStorage) : Option (List DrawCall) :=
  (List.range count).mapM (renderAt mesh shader st)

/-- `RenderSystem` as a registered system: reads the storage and
    appends its submissions to the renderer trace. -/
def RenderSystem.update (mesh shader count : Nat) : SystemFn :=
  fun w => (renderTick mesh shader count w.storage).map
    (fun calls => { w with draws := w.draws ++ calls })

/-- The scheduler as `App::init` assembles it: `RenderSystem` registered
    first, then `MovementSystem`, both iterating the configured entity
    population `count`. -/
def appECS (dom : NSize) (mesh shader count : Nat) (st : ECSStorage) : ECS :=
  ⟨⟨st, []⟩, [RenderSystem.update mesh shader count, MovementSystem.update dom count]⟩

/-- A storage's four container lengths, in declaration order. -/
def lengthsQuad (st : ECSStorage) : Nat × Nat × Nat × Nat :=
  (st.renderC.length, st.sizeC.length, st.posC.length, st.moveC.length)

/-- One-entity storage matching the reflection example of the spec:
    position (0,0), size (2,2), offset (-5,-5), white color. -/
def exampleSt1 : ECSStorage :=
  ⟨[⟨⟨1, 1, 1, 1⟩⟩], [⟨⟨2, 2⟩⟩], [⟨⟨0, 0⟩⟩], [⟨⟨-5, -5⟩⟩]⟩

/-- The state `exampleSt1` reaches after one movement tick in the
    800×600 domain: both axes reflect, position becomes (5,5). -/
def exampleSt1Post : ECSStorage :=
  ⟨[⟨⟨1, 1, 1, 1⟩⟩], [⟨⟨2, 2⟩⟩], [⟨⟨5, 5⟩⟩], [⟨⟨5, 5⟩⟩]⟩

/-- One-entity storage for the tunneling example: position (795,300),
    size (4,4) (half-extent 2), offset (+50,0). -/
def tunnelSt : ECSStorage :=
  ⟨[⟨⟨1, 1, 1, 1⟩⟩], [⟨⟨4, 4⟩⟩], [⟨⟨795, 300⟩⟩], [⟨⟨50, 0⟩⟩]⟩

/-- One-entity storage for the render-submission example: color
    (0.5, 0.6, 0.6, 1.0), size (15,15), position (100,100). -/
def renderSt : ECSStorage :=
  ⟨[⟨⟨0.5, 0.6, 0.6, 1.0⟩⟩], [⟨⟨15, 15⟩⟩], [⟨⟨100, 100⟩⟩], [⟨⟨0, 0⟩⟩]⟩

/-- The draw submission produced for the single entity of `exampleSt1`. -/
def exampleDraw : DrawCall :=
  ⟨1, 1, [⟨"pos", .vec3 ⟨0, 0⟩ 0⟩, ⟨"size", .vec3 ⟨2, 2⟩ 1⟩, ⟨"color", .color ⟨1, 1, 1, 1⟩⟩]⟩

theorem movementUpdateAt_eq (dom : NSize) (st : ECSStorage) (i : Nat)
    (p : PositionComponent) (s : SizeComponent) (m : MovementComponent)
    (hp : st.posC[i]? = some p) (hs : st.sizeC[i]? = some s) (hm : st.moveC[i]? = some m) :
    movementUpdateAt dom st i = some { st with
      posC := st.posC.set i ⟨(moveStep dom p.pos s.size m.offset).1⟩,
      moveC := st.moveC.set i ⟨(moveStep dom p.pos s.size m.offset).2⟩ } := by
  simp [movementUpdateAt, component?, hp, hs, hm]

theorem movementUpdateAt_frame (dom : NSize) (st : ECSStorage) (i : Nat) (st' : ECSStorage)
    (h : movementUpdateAt dom st i = some st') :
    st'.renderC = st.renderC ∧ st'.sizeC = st.sizeC ∧
    st'.posC.length = st.posC.length ∧ st'.moveC.length = st.moveC.length ∧
    (∀ j, j ≠ i → st'.posC[j]? = st.posC[j]? ∧ st'.moveC[j]? = st.moveC[j]?) := by
  cases hp : st.posC[i]? with
  | none => simp [movementUpdateAt, component?, hp] at h
  | some p =>
    cases hs : st.sizeC[i]? with
    | none => simp [movementUpdateAt, component?, hp, hs] at h
    | some s =>
      cases hm : st.moveC[i]? with
      | none => simp [movementUpdateAt, component?, hp, hs, hm] at h
      | some m =>
        rw [movementUpdateAt_eq dom st i p s m hp hs hm] at h
        injection h with h
        subst h
        refine ⟨rfl, rfl, List.length_set .., List.length_set .., ?_⟩
        intro j hj
        exact ⟨List.getElem?_set_ne (fun hij => hj hij.symm),
               List.getElem?_set_ne (fun hij => hj hij.symm)⟩

theorem movementTick_zero (dom : NSize) (st : ECSStorage) : movementTick dom 0 st = some st := rfl

theorem movementTick_succ (dom : NSize) (n : Nat) (st : ECSStorage) :
    movementTick dom (n + 1) st
      = (movementTick dom n st).bind (fun s1 => movementUpdateAt dom s1 n) := by
  simp [movementTick, List.range_succ, List.foldlM_append, List.foldlM]

theorem movementTick_spec (dom : NSize) : ∀ (count : Nat) (st : ECSStorage),
    count ≤ st.posC.length → count ≤ st.sizeC.length → count ≤ st.moveC.length →
    ∃ st', movementTick dom count st = some st' ∧
      st'.renderC = st.renderC ∧ st'.sizeC = st.sizeC ∧
      st'.posC.length = st.posC.length ∧ st'.moveC.length = st.moveC.length ∧
      (∀ j, count ≤ j → st'.posC[j]? = st.posC[j]? ∧ st'.moveC[j]? = st.moveC[j]?) ∧
      (∀ i, i < count → ∀ p s m,
        st.posC[i]? = some p → st.sizeC[i]? = some s → st.moveC[i]? = some m →
        st'.posC[i]? = some ⟨(moveStep dom p.pos s.size m.offset).1⟩ ∧
        st'.moveC[i]? = some ⟨(moveStep dom p.pos s.size m.offset).2⟩) := by
  intro count
  induction count with
  | zero =>
    intro st _ _ _
    exact ⟨st, movementTick_zero dom st, rfl, rfl, rfl, rfl,
      fun j _ => ⟨rfl, rfl⟩, fun i hi => absurd hi (Nat.not_lt_zero i)⟩
  | succ n ih =>
    intro st hp hs hm
    obtain ⟨st1, htick, hrend1, hsize1, hplen1, hmlen1, huntouched1, hstepped1⟩ :=
      ih st (Nat.le_of_succ_le hp) (Nat.le_of_succ_le hs) (Nat.le_of_succ_le hm)
    have hpn : n < st.posC.length := hp
    have hsn : n < st.sizeC.length := hs
    have hmn : n < st.moveC.length := hm
    have hread_p : st1.posC[n]? = some st.posC[n] := by
      rw [(huntouched1 n (Nat.le_refl n)).1, List.getElem?_eq_getElem hpn]
    have hread_s : st1.sizeC[n]? = some st.sizeC[n] := by
      rw [hsize1, List.getElem?_eq_getElem hsn]
    have hread_m : st1.moveC[n]? = some st.moveC[n] := by
      rw [(huntouched1 n (Nat.le_refl n)).2, List.getElem?_eq_getElem hmn]
    set stepped := moveStep dom (st.posC[n].pos) (st.sizeC[n].size) (st.moveC[n].offset) with hstep
    set st2 : ECSStorage := { st1 with
      posC := st1.posC.set n ⟨stepped.1⟩,
      moveC := st1.moveC.set n ⟨stepped.2⟩ } with hst2
    have hupd : movementUpdateAt dom st1 n = some st2 :=
      movementUpdateAt_eq dom st1 n _ _ _ hread_p hread_s hread_m
    refine ⟨st2, ?_, ?_, ?_, ?_, ?_, ?_, ?_⟩
    · rw [movementTick_succ, htick]
      simpa using hupd
    · show st1.renderC = st.renderC
      exact hrend1
    · show st1.sizeC = st.sizeC
      exact hsize1
    · show (st1.posC.set n _).length = st.posC.length
      rw [List.length_set]
      exact hplen1
    · show (st1.moveC.set n _).length = st.moveC.length
      rw [List.length_set]
      exact hmlen1
    · intro j hj
      have hnj : n ≠ j := Nat.ne_of_lt (Nat.lt_of_succ_le hj)
      constructor
      · show (st1.posC.set n _)[j]? = st.posC[j]?
        rw [List.getElem?_set_ne hnj]
        exact (huntouched1 j (Nat.le_of_succ_le hj)).1
      · show (st1.moveC.set n _)[j]? = st.moveC[j]?
        rw [List.getElem?_set_ne hnj]
        exact (huntouched1 j (Nat.le_of_succ_le hj)).2
    · intro i hi p s m hip his him
      rcases Nat.lt_succ_iff_lt_or_eq.mp hi with hlt | rfl
      · have hni : n ≠ i := (Nat.ne_of_lt hlt).symm
        have := hstepped1 i hlt p s m hip his him
        constructor
        · show (st1.posC.set n _)[i]? = _
          rw [List.getElem?_set_ne hni]
          exact this.1
        · show (st1.moveC.set n _)[i]? = _
          rw [List.getElem?_set_ne hni]
          exact this.2
      · have hpi : p = st.posC[i] := by
          have := List.getElem?_eq_getElem hpn
          rw [hip] at this
          exact (Option.some.inj this)
        have hsi : s = st.sizeC[i] := by
          have := List.getElem?_eq_getElem hsn
          rw [his] at this
          exact (Option.some.inj this)
        have hmi : m = st.moveC[i] := by
          have := List.getElem?_eq_getElem hmn
          rw [him] at this
          exact (Option.some.inj this)
        subst hpi hsi hmi
        constructor
        · show (st1.posC.set i _)[i]? = _
          rw [List.getElem?_set_self]
          rw [hplen1]
          exact hpn
        · show (st1.moveC.set i _)[i]? = _
          rw [List.getElem?_set_self]
          rw [hmlen1]
          exact hmn

theorem renderAt_isSome (mesh shader : Nat) (st : ECSStorage) (i : Nat)
    (hr : i < st.renderC.length) (hs : i < st.sizeC.length) (hp : i < st.posC.length) :
    (renderAt mesh shader st i).isSome := by
  simp [renderAt, component?, List.getElem?_eq_getElem, hr, hs, hp]

theorem mapM_option_isSome {α β : Type} (f : α → Option β) :
    ∀ (l : List α), (∀ a ∈ l, (f a).isSome) → (l.mapM f).isSome := by
  intro l
  rw [← List.mapM'_eq_mapM]
  induction l with
  | nil => intro _; rfl
  | cons a l ihl =>
    intro h
    have ha := h a (List.mem_cons_self a l)
    obtain ⟨b, hb⟩ := Option.isSome_iff_exists.mp ha
    obtain ⟨bs, hbs⟩ := Option.isSome_iff_exists.mp (ihl (fun x hx => h x (List.mem_cons_of_mem a hx)))
    simp [List.mapM', hb, hbs]

theorem renderTick_isSome (mesh shader count : Nat) (st : ECSStorage)
    (hr : count ≤ st.renderC.length) (hs : count ≤ st.sizeC.length)
    (hp : count ≤ st.posC.length) :
    (renderTick mesh shader count st).isSome := by
  apply mapM_option_isSome
  intro i hi
  have hic := List.mem_range.mp hi
  exact renderAt_isSome mesh shader st i
    (Nat.lt_of_lt_of_le hic hr) (Nat.lt_of_lt_of_le hic hs) (Nat.lt_of_lt_of_le hic hp)

theorem renderSystem_storage_eq (mesh shader count : Nat) (w w' : World)
    (h : RenderSystem.update mesh shader count w = some w') :
    w'.storage = w.storage ∧
    ∃ calls, renderTick mesh shader count w.storage = some calls ∧
      w'.draws = w.draws ++ calls := by
  cases hb : renderTick mesh shader count w.storage with
  | none => simp [RenderSystem.update, hb] at h
  | some calls =>
    simp only [RenderSystem.update, hb, Option.map_some'] at h
    injection h with h
    subst h
    exact ⟨rfl, calls, rfl, rfl⟩

theorem movementFold_frame (dom : NSize) : ∀ (l : List Nat) (st st' : ECSStorage),
    l.foldlM (movementUpdateAt dom) st = some st' →
    st'.renderC = st.renderC ∧ st'.sizeC = st.sizeC := by
  intro l
  induction l with
  | nil =>
    intro st st' h
    injection h with h
    subst h
    exact ⟨rfl, rfl⟩
  | cons i l ihl =>
    intro st st' h
    rw [List.foldlM_cons] at h
    cases hu : movementUpdateAt dom st i with
    | none => rw [hu] at h; exact absurd h (by simp)
    | some st1 =>
      rw [hu] at h
      simp only [Option.bind_eq_bind, Option.some_bind] at h
      obtain ⟨h1, h2⟩ := ihl st1 st' h
      obtain ⟨hr, hs, -⟩ := movementUpdateAt_frame dom st i st1 hu
      exact ⟨h1.trans hr, h2.trans hs⟩

theorem movementSystem_frame (dom : NSize) (count : Nat) (w w' : World)
    (h : MovementSystem.update dom count w = some w') :
    w'.draws = w.draws ∧ movementTick dom count w.storage = some w'.storage := by
  cases hb : movementTick dom count w.storage with
  | none => simp [MovementSystem.update, hb] at h
  | some st' =>
    simp only [MovementSystem.update, hb, Option.map_some'] at h
    injection h with h
    subst h
    exact ⟨rfl, rfl⟩

theorem ecsUpdate_pair_eq (A B : SystemFn) (w : World) :
    ECS.update ⟨w, [A, B]⟩ = ((A w).bind B).map (fun v => (⟨v, [A, B]⟩ : ECS)) := by
  cases hA : A w with
  | none => simp [ECS.update, List.foldlM, hA]
  | some w1 =>
    cases hB : B w1 with
    | none => simp [ECS.update, List.foldlM, hA, hB]
    | some w2 => simp [ECS.update, List.foldlM, hA, hB]

theorem appECS_update_step (dom : NSize) (mesh shader count : Nat) (w : World)
    (h : lengthsQuad w.storage = (count, count, count, count)) :
    ∃ w', ECS.update ⟨w, [RenderSystem.update mesh shader count, MovementSystem.update dom count]⟩
        = some ⟨w', [RenderSystem.update mesh shader count, MovementSystem.update dom count]⟩ ∧
      lengthsQuad w'.storage = (count, count, count, count) := by
  simp only [lengthsQuad, Prod.mk.injEq] at h
  obtain ⟨hr, hs, hp, hm⟩ := h
  obtain ⟨calls, hcalls⟩ := Option.isSome_iff_exists.mp
    (renderTick_isSome mesh shader count w.storage hr.ge hs.ge hp.ge)
  have hR : RenderSystem.update mesh shader count w = some { w with draws := w.draws ++ calls } := by
    simp [RenderSystem.update, hcalls]
  obtain ⟨st', htick, hrend, hsize, hplen, hmlen, -, -⟩ :=
    movementTick_spec dom count w.storage hp.ge hs.ge hm.ge
  have hM : MovementSystem.update dom count { w with draws := w.draws ++ calls }
      = some { storage := st', draws := w.draws ++ calls } := by
    simp [MovementSystem.update, htick]
  refine ⟨{ storage := st', draws := w.draws ++ calls }, ?_, ?_⟩
  · rw [ecsUpdate_pair_eq, hR]
    simp [hM]
  · simp [lengthsQuad, hrend, hsize, hplen, hmlen, hr, hs, hp, hm]

theorem appECS_updateN_lengths (dom : NSize) (mesh shader count : Nat) : ∀ (n : Nat) (w : World),
    lengthsQuad w.storage = (count, count, count, count) →
    (ECS.updateN n ⟨w, [RenderSystem.update mesh shader count, MovementSystem.update dom count]⟩).map
      (fun e => lengthsQuad e.world.storage) = some (count, count, count, count) := by
  intro n
  induction n with
  | zero =>
    intro w h
    simpa [ECS.updateN] using h
  | succ k ihn =>
    intro w h
    obtain ⟨w', hup, hlen⟩ := appECS_update_step dom mesh shader count w h
    rw [ECS.updateN, hup]
    simp only [Option.bind_eq_bind, Option.some_bind]
    exact ihn w' hlen

theorem moveStep_offset_x (dom : NSize) (p s m : Vector2i) :
    (moveStep dom p s m).2.x
      = if p.x + Int.tdiv s.x 2 > dom.width ∨ p.x - Int.tdiv s.x 2 < 0 then -m.x else m.x := rfl

theorem moveStep_offset_y (dom : NSize) (p s m : Vector2i) :
    (moveStep dom p s m).2.y
      = if p.y + Int.tdiv s.y 2 > dom.height ∨ p.y - Int.tdiv s.y 2 < 0 then -m.y else m.y := rfl

theorem moveStep_pos_x (dom : NSize) (p s m : Vector2i) :
    (moveStep dom p s m).1.x = p.x + (moveStep dom p s m).2.x := rfl

theorem moveStep_pos_y (dom : NSize) (p s m : Vector2i) :
    (moveStep dom p s m).1.y = p.y + (moveStep dom p s m).2.y := rfl

/-- C1: for every component state and every entity index below the
    configured population, one `MovementSystem::update()` tick, per axis
    independently, negates the offset axis exactly when the pre-tick
    position plus `size / 2` exceeds the domain extent or the pre-tick
    position minus `size / 2` is below zero, and then increments the
    position exactly once by the possibly just-flipped offset within the
    same tick, so a flip changes that same tick's movement direction. -/
theorem movement_reflection_same_tick (dom : NSize) (count : Nat) (st : ECSStorage) (i : Nat)
    (hi : i < count)
    (hp : count ≤ st.posC.length) (hs : count ≤ st.sizeC.length) (hm : count ≤ st.moveC.length) :
    ∃ p s m st',
      st.posC[i]? = some p ∧ st.sizeC[i]? = some s ∧ st.moveC[i]? = some m ∧
      movementTick dom count st = some st' ∧
      (let ox := if p.pos.x + Int.tdiv s.size.x 2 > dom.width ∨ p.pos.x - Int.tdiv s.size.x 2 < 0
                 then -m.offset.x else m.offset.x
       let oy := if p.pos.y + Int.tdiv s.size.y 2 > dom.height ∨ p.pos.y - Int.tdiv s.size.y 2 < 0
                 then -m.offset.y else m.offset.y
       st'.moveC[i]? = some ⟨⟨ox, oy⟩⟩ ∧ st'.posC[i]? = some ⟨⟨p.pos.x + ox, p.pos.y + oy⟩⟩) := by
  have hpl : i < st.posC.length := Nat.lt_of_lt_of_le hi hp
  have hsl : i < st.sizeC.length := Nat.lt_of_lt_of_le hi hs
  have hml : i < st.moveC.length := Nat.lt_of_lt_of_le hi hm
  obtain ⟨st', htick, -, -, -, -, -, hstepped⟩ := movementTick_spec dom count st hp hs hm
  refine ⟨st.posC[i], st.sizeC[i], st.moveC[i], st', List.getElem?_eq_getElem hpl,
    List.getElem?_eq_getElem hsl, List.getElem?_eq_getElem hml, htick, ?_⟩
  have hres := hstepped i hi _ _ _ (List.getElem?_eq_getElem hpl) (List.getElem?_eq_getElem hsl)
    (List.getElem?_eq_getElem hml)
  exact ⟨hres.2, hres.1⟩

/-- Witness for C1: the spec's concrete reflection example, entity at
    (0,0) with size (2,2) and offset (-5,-5) in the 800×600 domain. -/
theorem movement_reflection_same_tick_witness :
    (0 : Nat) < 1 ∧ 1 ≤ exampleSt1.posC.length ∧
    (∃ p s m st',
      exampleSt1.posC[0]? = some p ∧ exampleSt1.sizeC[0]? = some s ∧
      exampleSt1.moveC[0]? = some m ∧
      movementTick ⟨800, 600⟩ 1 exampleSt1 = some st' ∧
      (let ox := if p.pos.x + Int.tdiv s.size.x 2 > (800 : Int) ∨ p.pos.x - Int.tdiv s.size.x 2 < 0
                 then -m.offset.x else m.offset.x
       let oy := if p.pos.y + Int.tdiv s.size.y 2 > (600 : Int) ∨ p.pos.y - Int.tdiv s.size.y 2 < 0
                 then -m.offset.y else m.offset.y
       st'.moveC[0]? = some ⟨⟨ox, oy⟩⟩ ∧ st'.posC[0]? = some ⟨⟨p.pos.x + ox, p.pos.y + oy⟩⟩)) :=
  ⟨by decide, by decide,
    movement_reflection_same_tick ⟨800, 600⟩ 1 exampleSt1 0 (by decide) (by decide) (by decide)
      (by decide)⟩

/-- C4: an entity at (795,300) with half-extent 2 (size 4) and offset
    (+50,0) in the 800×600 domain triggers no flip this tick (far edge
    797 does not exceed 800) and moves to (845,300), outside the domain,
    with no clamping: even its near edge 843 lies beyond the far
    boundary. -/
theorem movement_tunneling_case :
    (movementTick ⟨800, 600⟩ 1 tunnelSt).map (fun st => (st.posC, st.moveC))
      = some ([⟨⟨845, 300⟩⟩], [⟨⟨50, 0⟩⟩]) ∧ (800 : Int) < 845 - Int.tdiv 4 2 := by
  decide

/-- C2: the scheduler's `update()` runs every registered system exactly
    once, strictly in registration order and synchronously: for systems
    registered as [A, B], the resulting world is B applied to the world
    A produced, so all of A's reads and writes complete before any of
    B's begin, with no early exit. -/
theorem scheduler_runs_systems_in_order (A B : SystemFn) (w : World) :
    ECS.update ⟨w, [A, B]⟩ = ((A w).bind B).map (fun v => (⟨v, [A, B]⟩ : ECS)) :=
  ecsUpdate_pair_eq A B w

/-- C3: with the render and movement systems registered as in
    `App::init`, if every component container has length equal to the
    configured population count, then any number of scheduler ticks
    succeeds and leaves every container at exactly that length: nothing
    reachable from `update()` adds to or removes from any container. -/
theorem scheduler_preserves_population (dom : NSize) (mesh shader count n : Nat)
    (st : ECSStorage) (h : lengthsQuad st = (count, count, count, count)) :
    (ECS.updateN n (appECS dom mesh shader count st)).map (fun e => lengthsQuad e.world.storage)
      = some (count, count, count, count) :=
  appECS_updateN_lengths dom mesh shader count n ⟨st, []⟩ h

/-- Witness for C3: two ticks of the assembled scheduler on a one-entity
    state keep all four container lengths at one. -/
theorem scheduler_preserves_population_witness :
    lengthsQuad exampleSt1 = (1, 1, 1, 1) ∧
    (ECS.updateN 2 (appECS ⟨800, 600⟩ 1 1 1 exampleSt1)).map (fun e => lengthsQuad e.world.storage)
      = some (1, 1, 1, 1) :=
  ⟨by decide, scheduler_preserves_population ⟨800, 600⟩ 1 1 1 2 exampleSt1 (by decide)⟩

/-- C5: when every container holds at least the configured population
    count, every `component<T>(index)` access performed by a movement
    tick or a render tick is in bounds: both ticks succeed (the
    out-of-bounds branch of the embedded accessor is never taken), every
    per-index access yields a value, and the accessor returns exactly
    the element of the container at the requested position. -/
theorem component_access_in_bounds (dom : NSize) (mesh shader count : Nat) (st : ECSStorage)
    (hr : count ≤ st.renderC.length) (hs : count ≤ st.sizeC.length)
    (hp : count ≤ st.posC.length) (hm : count ≤ st.moveC.length) :
    (movementTick dom count st).isSome ∧ (renderTick mesh shader count st).isSome ∧
    (∀ i, i < count → (component? st.posC i).isSome ∧ (component? st.sizeC i).isSome ∧
      (component? st.moveC i).isSome ∧ (component? st.renderC i).isSome) ∧
    (∀ (l : List PositionComponent) (j : Nat) (hj : j < l.length),
      component? l j = some (l.get ⟨j, hj⟩)) := by
  obtain ⟨st', htick, -⟩ := movementTick_spec dom count st hp hs hm
  refine ⟨by rw [htick]; rfl, renderTick_isSome mesh shader count st hr hs hp, ?_, ?_⟩
  · intro i hi
    refine ⟨?_, ?_, ?_, ?_⟩ <;>
      simp [component?, List.getElem?_eq_getElem, Nat.lt_of_lt_of_le hi hp,
        Nat.lt_of_lt_of_le hi hs, Nat.lt_of_lt_of_le hi hm, Nat.lt_of_lt_of_le hi hr]
  · intro l j hj
    simp [component?, List.getElem?_eq_getElem hj]

/-- Witness for C5 on the one-entity example state. -/
theorem component_access_in_bounds_witness :
    1 ≤ exampleSt1.renderC.length ∧ 1 ≤ exampleSt1.sizeC.length ∧
    1 ≤ exampleSt1.posC.length ∧ 1 ≤ exampleSt1.moveC.length ∧
    (movementTick ⟨800, 600⟩ 1 exampleSt1).isSome ∧
    (renderTick 1 1 1 exampleSt1).isSome ∧
    (component? exampleSt1.posC 0).isSome := by
  refine ⟨by decide, by decide, by decide, by decide, ?_, ?_, ?_⟩
  · exact (component_access_in_bounds ⟨800, 600⟩ 1 1 1 exampleSt1
      (by decide) (by decide) (by decide) (by decide)).1
  · exact (component_access_in_bounds ⟨800, 600⟩ 1 1 1 exampleSt1
      (by decide) (by decide) (by decide) (by decide)).2.1
  · exact ((component_access_in_bounds ⟨800, 600⟩ 1 1 1 exampleSt1
      (by decide) (by decide) (by decide) (by decide)).2.2.1 0 (by decide)).1

/-- C6: `add_component(v)` always succeeds and appends `v` at the end of
    the container of its static type — that container gains exactly the
    one element `v` at its end while every other declared type's
    container and the registered system list are left unchanged. -/
theorem add_component_appends (e : ECS) (c : Component) (t : Fin 4) :
    containerView (ECS.addComponent e c).world.storage t
      = containerView e.world.storage t ++ (if t = ctype c then [c] else []) ∧
    (containerView (ECS.addComponent e c).world.storage (ctype c)).getLast? = some c ∧
    (containerView (ECS.addComponent e c).world.storage (ctype c)).length
      = (containerView e.world.storage (ctype c)).length + 1 ∧
    (ECS.addComponent e c).systems = e.systems := by
  refine ⟨?_, ?_, ?_, rfl⟩
  · fin_cases t <;> cases c <;>
      simp [ECS.addComponent, add_component, containerView, ctype, Fin.ext_iff] <;> decide
  · cases c <;>
      simp [ECS.addComponent, add_component, containerView, ctype, List.getLast?_concat]
  · cases c <;> simp [ECS.addComponent, add_component, containerView, ctype]

/-- C7: for a population of exactly one entity with color
    (0.5, 0.6, 0.6, 1.0), size (15,15) and position (100,100), a single
    `RenderSystem::update()` produces exactly one draw submission, whose
    uniform bindings carry those three component values unmodified. -/
theorem render_single_submission :
    RenderSystem.update 1 1 1 ⟨renderSt, []⟩
      = some ⟨renderSt, [⟨1, 1, [⟨"pos", .vec3 ⟨100, 100⟩ 0⟩, ⟨"size", .vec3 ⟨15, 15⟩ 1⟩,
          ⟨"color", .color ⟨0.5, 0.6, 0.6, 1.0⟩⟩]⟩]⟩ := by
  rfl

/-- C8: a movement tick leaves the render (color) and size containers
    exactly as they were — it writes only positions and movements — and
    a render tick leaves the entire component storage unchanged. -/
theorem systems_frame_effects (dom : NSize) (count mesh shader : Nat)
    (st st' : ECSStorage) (w w' : World) :
    (movementTick dom count st = some st' → st'.renderC = st.renderC ∧ st'.sizeC = st.sizeC) ∧
    (RenderSystem.update mesh shader count w = some w' → w'.storage = w.storage) := by
  constructor
  · intro h
    exact movementFold_frame dom (List.range count) st st' h
  · intro h
    exact (renderSystem_storage_eq mesh shader count w w' h).1

/-- Witness for C8: a successful movement tick on the one-entity example
    state and a successful render tick, both with their frame
    conditions. -/
theorem systems_frame_effects_witness :
    (exampleSt1Post.renderC = exampleSt1.renderC ∧ exampleSt1Post.sizeC = exampleSt1.sizeC) ∧
    (⟨exampleSt1, [exampleDraw]⟩ : World).storage = (⟨exampleSt1, []⟩ : World).storage := by
  constructor
  · exact (systems_frame_effects ⟨800, 600⟩ 1 1 1 exampleSt1 exampleSt1Post
      ⟨exampleSt1, []⟩ ⟨exampleSt1, [exampleDraw]⟩).1 (by decide)
  · exact (systems_frame_effects ⟨800, 600⟩ 1 1 1 exampleSt1 exampleSt1Post
      ⟨exampleSt1, []⟩ ⟨exampleSt1, [exampleDraw]⟩).2 (by decide)

/-- C9: the reflection condition depends only on position and size,
    never on the offset's direction: whenever the box violates a
    boundary on an axis the offset on that axis is negated, even if it
    already points back into the domain — in which case the entity moves
    further out of bounds that tick — and a box violating the same
    axis's boundary on two consecutive ticks has its offset negated
    twice, restoring the original sign. -/
theorem reflection_ignores_offset_direction (dom : NSize) (p s m : Vector2i) :
    ((p.x + Int.tdiv s.x 2 > dom.width ∨ p.x - Int.tdiv s.x 2 < 0) →
      (moveStep dom p s m).2.x = -m.x) ∧
    (p.x + Int.tdiv s.x 2 > dom.width → m.x < 0 → p.x < (moveStep dom p s m).1.x) ∧
    (p.x - Int.tdiv s.x 2 < 0 → 0 < m.x → (moveStep dom p s m).1.x < p.x) ∧
    ((p.x + Int.tdiv s.x 2 > dom.width ∨ p.x - Int.tdiv s.x 2 < 0) →
      ((moveStep dom p s m).1.x + Int.tdiv s.x 2 > dom.width ∨
        (moveStep dom p s m).1.x - Int.tdiv s.x 2 < 0) →
      (moveStep dom (moveStep dom p s m).1 s (moveStep dom p s m).2).2.x = m.x) ∧
    ((p.y + Int.tdiv s.y 2 > dom.height ∨ p.y - Int.tdiv s.y 2 < 0) →
      (moveStep dom p s m).2.y = -m.y) ∧
    (p.y + Int.tdiv s.y 2 > dom.height → m.y < 0 → p.y < (moveStep dom p s m).1.y) ∧
    (p.y - Int.tdiv s.y 2 < 0 → 0 < m.y → (moveStep dom p s m).1.y < p.y) ∧
    ((p.y + Int.tdiv s.y 2 > dom.height ∨ p.y - Int.tdiv s.y 2 < 0) →
      ((moveStep dom p s m).1.y + Int.tdiv s.y 2 > dom.height ∨
        (moveStep dom p s m).1.y - Int.tdiv s.y 2 < 0) →
      (moveStep dom (moveStep dom p s m).1 s (moveStep dom p s m).2).2.y = m.y) := by
  refine ⟨?_, ?_, ?_, ?_, ?_, ?_, ?_, ?_⟩
  · intro hc
    rw [moveStep_offset_x, if_pos hc]
  · intro hfar hmx
    rw [moveStep_pos_x, moveStep_offset_x, if_pos (Or.inl hfar)]
    omega
  · intro hnear hmx
    rw [moveStep_pos_x, moveStep_offset_x, if_pos (Or.inr hnear)]
    omega
  · intro h1 h2
    rw [moveStep_offset_x, if_pos h2, moveStep_offset_x, if_pos h1, neg_neg]
  · intro hc
    rw [moveStep_offset_y, if_pos hc]
  · intro hfar hmy
    rw [moveStep_pos_y, moveStep_offset_y, if_pos (Or.inl hfar)]
    omega
  · intro hnear hmy
    rw [moveStep_pos_y, moveStep_offset_y, if_pos (Or.inr hnear)]
    omega
  · intro h1 h2
    rw [moveStep_offset_y, if_pos h2, moveStep_offset_y, if_pos h1, neg_neg]

/-- Witness for C9: concrete boundary-violating entities on each axis,
    with the offset already pointing back into the domain. -/
theorem reflection_ignores_offset_direction_witness :
    (moveStep ⟨800, 600⟩ ⟨805, 5⟩ ⟨2, 2⟩ ⟨-3, 0⟩).2.x = -(-3) ∧
    (805 : Int) < (moveStep ⟨800, 600⟩ ⟨805, 5⟩ ⟨2, 2⟩ ⟨-3, 0⟩).1.x ∧
    (moveStep ⟨800, 600⟩ ⟨0, 5⟩ ⟨2, 2⟩ ⟨4, 0⟩).1.x < 0 ∧
    (moveStep ⟨800, 600⟩ (moveStep ⟨800, 600⟩ ⟨805, 5⟩ ⟨2, 2⟩ ⟨-3, 0⟩).1 ⟨2, 2⟩
      (moveStep ⟨800, 600⟩ ⟨805, 5⟩ ⟨2, 2⟩ ⟨-3, 0⟩).2).2.x = -3 ∧
    (moveStep ⟨800, 600⟩ ⟨5, 605⟩ ⟨2, 2⟩ ⟨0, -3⟩).2.y = -(-3) ∧
    (605 : Int) < (moveStep ⟨800, 600⟩ ⟨5, 605⟩ ⟨2, 2⟩ ⟨0, -3⟩).1.y ∧
    (moveStep ⟨800, 600⟩ ⟨5, 0⟩ ⟨2, 2⟩ ⟨0, 4⟩).1.y < 0 ∧
    (moveStep ⟨800, 600⟩ (moveStep ⟨800, 600⟩ ⟨5, 605⟩ ⟨2, 2⟩ ⟨0, -3⟩).1 ⟨2, 2⟩
      (moveStep ⟨800, 600⟩ ⟨5, 605⟩ ⟨2, 2⟩ ⟨0, -3⟩).2).2.y = -3 := by
  refine ⟨?_, ?_, ?_, ?_, ?_, ?_, ?_, ?_⟩
  · exact (reflection_ignores_offset_direction ⟨800, 600⟩ ⟨805, 5⟩ ⟨2, 2⟩ ⟨-3, 0⟩).1 (by decide)
  · exact (reflection_ignores_offset_direction ⟨800, 600⟩ ⟨805, 5⟩ ⟨2, 2⟩ ⟨-3, 0⟩).2.1
      (by decide) (by decide)
  · exact (reflection_ignores_offset_direction ⟨800, 600⟩ ⟨0, 5⟩ ⟨2, 2⟩ ⟨4, 0⟩).2.2.1
      (by decide) (by decide)
  · exact (reflection_ignores_offset_direction ⟨800, 600⟩ ⟨805, 5⟩ ⟨2, 2⟩ ⟨-3, 0⟩).2.2.2.1
      (by decide) (by decide)
  · exact (reflection_ignores_offset_direction ⟨800, 600⟩ ⟨5, 605⟩ ⟨2, 2⟩ ⟨0, -3⟩).2.2.2.2.1
      (by decide)
  · exact (reflection_ignores_offset_direction ⟨800, 600⟩ ⟨5, 605⟩ ⟨2, 2⟩ ⟨0, -3⟩).2.2.2.2.2.1
      (by decide) (by decide)
  · exact (reflection_ignores_offset_direction ⟨800, 600⟩ ⟨5, 0⟩ ⟨2, 2⟩ ⟨0, 4⟩).2.2.2.2.2.2.1
      (by decide) (by decide)
  · exact (reflection_ignores_offset_direction ⟨800, 600⟩ ⟨5, 605⟩ ⟨2, 2⟩
      ⟨0, -3⟩).2.2.2.2.2.2.2 (by decide) (by decide)

/-- C10: appends of components of two distinct declared types commute:
    the storage state after `add_component(a); add_component(b)` equals
    the state after `add_component(b); add_component(a)`. -/
theorem add_component_cross_type_commutes (st : ECSStorage) (a b : Component)
    (h : ctype a ≠ ctype b) :
    add_component (add_component st a) b = add_component (add_component st b) a := by
  cases a <;> cases b <;> first
    | exact absurd rfl h
    | rfl

/-- Witness for C10: a render component and a size component appended in
    either order to the empty storage give the same state. -/
theorem add_component_cross_type_commutes_witness :
    ctype (.render ⟨⟨1, 1, 1, 1⟩⟩) ≠ ctype (.size ⟨⟨3, 4⟩⟩) ∧
    add_component (add_component ⟨[], [], [], []⟩ (.render ⟨⟨1, 1, 1, 1⟩⟩)) (.size ⟨⟨3, 4⟩⟩)
      = add_component (add_component ⟨[], [], [], []⟩ (.size ⟨⟨3, 4⟩⟩)) (.render ⟨⟨1, 1, 1, 1⟩⟩) :=
  ⟨by decide,
    add_component_cross_type_commutes ⟨[], [], [], []⟩ (.render ⟨⟨1, 1, 1, 1⟩⟩)
      (.size ⟨⟨3, 4⟩⟩) (by decide)⟩
